import Mathlib

/-!
Verification of the IntentX intent lifecycle and execution orchestration
subsystem: a shallow embedding of `IntentRegistry.sol` and
`ExecutionManager.sol` with theorems about registration uniqueness, the
status lifecycle, all-or-nothing step execution, failure accounting,
gas estimation and execution statistics.

Machine integers (`uint256`, `bytes32`, `address`) are modelled as `Nat`;
the quantities involved (counters, gas figures, token amounts) never
approach `2^256` in any statement proved here, so no wrap-around modelling
is needed.  Solidity mappings become association lists with mapping write
semantics (`insertAssoc`); `address(0)` is `0`; a `require` failure or
revert becomes `Except.error` carrying the revert reason, which also
models the EVM guarantee that a reverted call leaves no state change.
-/

namespace IntentX

abbrev Address := Nat

/-- Intent lifecycle states.  The enum declaration itself sits in the part
of `IntentRegistry.sol` that is not included under `src/`; the member list
is modelled from the spec (`Pending, Parsed, Executing, Completed, Failed,
Cancelled`), matching every member referenced by the included function
bodies (`Parsed`, `Completed`, `Failed`, `Cancelled`). -/
inductive IntentStatus
  | Pending
  | Parsed
  | Executing
  | Completed
  | Failed
  | Cancelled
deriving DecidableEq, Repr

/-- The `Intent` struct stored by `IntentRegistry`. -/
structure Intent where
  user : Address
  intentHash : Nat
  naturalLanguage : String
  parsedData : List Nat
  status : IntentStatus
  createdAt : Nat
  executedAt : Nat
  gasEstimate : Nat
  executionCount : Nat
  executionHash : Nat
deriving DecidableEq, Repr

/-- Solidity mapping default value: the all-zero `Intent` struct. -/
def emptyIntent : Intent :=
  { user := 0, intentHash := 0, naturalLanguage := "", parsedData := []
  , status := .Pending, createdAt := 0, executedAt := 0, gasEstimate := 0
  , executionCount := 0, executionHash := 0 }

/-- Mapping write `m[id] = v`: replace the first binding of `id`, or append
a fresh binding when `id` is absent. -/
def insertAssoc {α : Type} (m : List (Nat × α)) (id : Nat) (v : α) :
    List (Nat × α) :=
  match m with
  | [] => [(id, v)]
  | (k, w) :: rest =>
      if k = id then (id, v) :: rest else (k, w) :: insertAssoc rest id v

/-- Mapping read. -/
def lookupAssoc {α : Type} : List (Nat × α) → Nat → Option α
  | [], _ => none
  | (k, v) :: rest, id => if k = id then some v else lookupAssoc rest id

/-- Storage of `IntentRegistry`.  `owner` and `executors` belong to the
declaration section of the contract that is not included under `src/`;
they are modelled from the spec's Role Registry (single owner, a set of
executor identities). -/
structure RegistryState where
  intents : List (Nat × Intent)
  allIntentIds : List Nat
  userIntents : List (Address × List Nat)
  userIntentCount : List (Address × Nat)
  owner : Address
  executors : List Address
deriving Repr, DecidableEq

/-- `intents[id]` with Solidity mapping semantics (absent id yields the
zero struct, whose `user` field is `address(0)`). -/
def lookupIntent (st : RegistryState) (id : Nat) : Intent :=
  match lookupAssoc st.intents id with
  | some i => i
  | none => emptyIntent

/-- Modelled from the spec: the `onlyExecutor` modifier's check, whose
declaration is in the part of `IntentRegistry.sol` missing from `src/`.
Spec §4.2: `isExecutor(identity)` holds for registered executors and the
owner always satisfies it. -/
def isExecutor (st : RegistryState) (a : Address) : Bool :=
  a == st.owner || st.executors.contains a

/-- Stand-in for `keccak256(abi.encodePacked(intentId, gasUsed,
block.timestamp))` in `markIntentExecuted`; no theorem below depends on
any property of this function. -/
def execCommitHash (intentId gasUsed timestamp : Nat) : Nat :=
  Nat.pair intentId (Nat.pair gasUsed timestamp)

/-- The `Intent` struct value built by `registerIntent` (initial status is
`Parsed`: the reference system stores pre-parsed data at registration). -/
def freshIntent (sender : Address) (id : Nat) (nl : String) (pd : List Nat)
    (g ts : Nat) : Intent :=
  { user := sender, intentHash := id, naturalLanguage := nl, parsedData := pd
  , status := .Parsed, createdAt := ts, executedAt := 0, gasEstimate := g
  , executionCount := 0, executionHash := 0 }

/-- The struct update performed by `updateIntentStatus`: write `newStatus`
unconditionally; stamp `executedAt` when entering `Completed` or
`Failed`. -/
def setStatusIntent (i : Intent) (ns : IntentStatus) (ts : Nat) : Intent :=
  { i with
      status := ns
    , executedAt :=
        if ns = .Completed ∨ ns = .Failed then ts else i.executedAt }

/-- The struct update performed by `markIntentExecuted`. -/
def completeIntent (i : Intent) (id g ts : Nat) : Intent :=
  { i with
      status := .Completed
    , executedAt := ts
    , executionCount := i.executionCount + 1
    , executionHash := execCommitHash id g ts }

/-- The struct update performed by `cancelIntent`. -/
def cancelledIntent (i : Intent) : Intent :=
  { i with status := .Cancelled }

/-- Events emitted by the registry and the execution manager (the fields
the claims observe). -/
inductive Event
  | IntentRegistered (id : Nat) (user : Address)
  | IntentStatusUpdated (id : Nat) (oldStatus newStatus : IntentStatus)
  | IntentExecuted (id : Nat) (gasUsed : Nat)
  | IntentExecutionStarted (id : Nat) (stepCount : Nat)
  | IntentExecutionCompleted (id : Nat) (gasUsed outputAmount : Nat)
  | IntentExecutionFailed (id : Nat) (reason : String)
  | StepExecutedEvt (id : Nat) (stepIndex : Nat) (amount : Nat)
  | ExecutionMetricsRecorded (id : Nat) (gasUsed : Nat)
deriving DecidableEq, Repr

def bumpUserIntents (m : List (Address × List Nat)) (a : Address) (id : Nat) :
    List (Address × List Nat) :=
  match m with
  | [] => [(a, [id])]
  | (k, l) :: rest =>
      if k = a then (a, l ++ [id]) :: rest else (k, l) :: bumpUserIntents rest a id

def bumpUserCount (m : List (Address × Nat)) (a : Address) :
    List (Address × Nat) :=
  match m with
  | [] => [(a, 1)]
  | (k, n) :: rest =>
      if k = a then (a, n + 1) :: rest else (k, n) :: bumpUserCount rest a

/-- `IntentRegistry.registerIntent`.  `hashFn` abstracts
`keccak256(abi.encodePacked(msg.sender, naturalLanguage, block.timestamp,
allIntentIds.length))`; no uniqueness theorem below assumes anything about
it beyond what the code's own duplicate check enforces. -/
def registerIntent (hashFn : Address → String → Nat → Nat → Nat)
    (st : RegistryState) (sender : Address) (naturalLanguage : String)
    (parsedData : List Nat) (gasEstimate : Nat) (timestamp : Nat) :
    Except String (Nat × RegistryState × List Event) :=
  if naturalLanguage.length = 0 then
    .error "Intent description cannot be empty"
  else if gasEstimate = 0 then
    .error "Gas estimate must be greater than zero"
  else if 10000000 < gasEstimate then
    .error "Gas estimate exceeds maximum limit"
  else
    let intentId := hashFn sender naturalLanguage timestamp st.allIntentIds.length
    if (lookupIntent st intentId).user ≠ 0 then
      .error "Intent already exists"
    else
      let intent : Intent :=
        freshIntent sender intentId naturalLanguage parsedData gasEstimate timestamp
      .ok (intentId,
        { st with
            intents := insertAssoc st.intents intentId intent
          , allIntentIds := st.allIntentIds ++ [intentId]
          , userIntents := bumpUserIntents st.userIntents sender intentId
          , userIntentCount := bumpUserCount st.userIntentCount sender },
        [.IntentRegistered intentId sender])

/-- `IntentRegistry.updateIntentStatus` (executor-gated; the body performs
no transition validation: any `newStatus` is written unconditionally). -/
def updateIntentStatus (st : RegistryState) (sender : Address)
    (intentId : Nat) (newStatus : IntentStatus) (timestamp : Nat) :
    Except String (RegistryState × List Event) :=
  if ¬ isExecutor st sender then
    .error "Caller is not an authorized executor"
  else
    let intent := lookupIntent st intentId
    if intent.user = 0 then .error "Intent does not exist"
    else
      let oldStatus := intent.status
      let intent' := setStatusIntent intent newStatus timestamp
      .ok ({ st with intents := insertAssoc st.intents intentId intent' },
        [.IntentStatusUpdated intentId oldStatus newStatus])

/-- `IntentRegistry.markIntentExecuted`. -/
def markIntentExecuted (st : RegistryState) (sender : Address)
    (intentId gasUsed timestamp : Nat) :
    Except String (RegistryState × List Event) :=
  if ¬ isExecutor st sender then
    .error "Caller is not an authorized executor"
  else
    let intent := lookupIntent st intentId
    if intent.user = 0 then .error "Intent does not exist"
    else if intent.status = .Completed then .error "Intent already completed"
    else
      let oldStatus := intent.status
      let intent' := completeIntent intent intentId gasUsed timestamp
      .ok ({ st with intents := insertAssoc st.intents intentId intent' },
        [.IntentExecuted intentId gasUsed,
         .IntentStatusUpdated intentId oldStatus .Completed])

/-- `IntentRegistry.cancelIntent`. -/
def cancelIntent (st : RegistryState) (sender : Address) (intentId : Nat) :
    Except String (RegistryState × List Event) :=
  let intent := lookupIntent st intentId
  if intent.user = 0 then .error "Intent does not exist"
  else if sender ≠ intent.user then .error "Only intent creator can cancel"
  else if intent.status = .Completed then .error "Cannot cancel completed intent"
  else
    let oldStatus := intent.status
    let intent' := cancelledIntent intent
    .ok ({ st with intents := insertAssoc st.intents intentId intent' },
      [.IntentStatusUpdated intentId oldStatus .Cancelled])

/-! ## ExecutionManager -/

inductive ActionType
  | Swap
  | Stake
  | Supply
  | Borrow
  | Withdraw
  | Unstake
deriving DecidableEq, Repr

/-- The `ExecutionStep` struct of `ExecutionManager.sol`. -/
structure ExecutionStep where
  actionType : ActionType
  protocol : Address
  tokenIn : Address
  tokenOut : Address
  amount : Nat
  minOutput : Nat
deriving DecidableEq, Repr

/-- The `ExecutionMetrics` struct of `ExecutionManager.sol`. -/
structure ExecutionMetrics where
  startGas : Nat
  endGas : Nat
  gasUsed : Nat
  executionTime : Nat
  success : Bool
deriving DecidableEq, Repr

/-- An execution-time failure as observed by `executeIntent`'s try/catch:
`named reason` is a revert carrying a string reason (caught by
`catch Error(string memory reason)`), `lowLevel` is any other revert
(caught by `catch (bytes memory lowLevelData)`). -/
inductive ExecErr
  | named (reason : String)
  | lowLevel
deriving DecidableEq, Repr

/-- Outcome of the opaque external venue calls performed while executing
step `i` (`router.swapExactTokensForTokens`, `safeTransferFrom`): the
environment either lets them succeed or makes them revert. -/
abbrev ExtEnv := Nat → Except ExecErr Unit

/-- Storage of `ExecutionManager`, together with the address the contract
itself occupies (`address(this)`, used by `executeSteps`'s internal-caller
check) and the `ReentrancyGuard` lock bit. -/
structure ManagerState where
  registry : RegistryState
  managerAddr : Address
  totalExecutions : Nat
  successfulExecutions : Nat
  failedExecutions : Nat
  executionMetrics : List (Nat × ExecutionMetrics)
  locked : Bool
deriving Repr, DecidableEq

/-- `ExecutionManager.executeSwap` (internal): the simulated venue output
is `amount * 95 / 100` (a fixed 5% slippage), checked against
`step.minOutput` before the router call. -/
def executeSwap (ext : Except ExecErr Unit) (step : ExecutionStep) :
    Except ExecErr Nat :=
  if step.tokenIn = 0 ∨ step.tokenOut = 0 then
    .error (.named "Invalid token addresses")
  else if step.minOutput = 0 then
    .error (.named "Minimum output must be specified")
  else
    let outputAmount := step.amount * 95 / 100
    if outputAmount < step.minOutput then
      .error (.named "Output below minimum acceptable")
    else
      match ext with
      | .error e => .error e
      | .ok _ => .ok outputAmount

/-- `ExecutionManager.executeStake` (internal). -/
def executeStake (ext : Except ExecErr Unit) (step : ExecutionStep) :
    Except ExecErr Nat :=
  if step.amount = 0 then .error (.named "Invalid stake amount")
  else if step.tokenIn = 0 then .error (.named "Invalid token address")
  else if step.protocol = 0 then .error (.named "Invalid staking protocol")
  else
    match ext with
    | .error e => .error e
    | .ok _ => .ok step.amount

/-- `ExecutionManager.executeSupply` (internal). -/
def executeSupply (ext : Except ExecErr Unit) (step : ExecutionStep) :
    Except ExecErr Nat :=
  if step.amount = 0 then .error (.named "Invalid supply amount")
  else if step.tokenIn = 0 then .error (.named "Invalid token address")
  else if step.protocol = 0 then .error (.named "Invalid lending protocol")
  else
    match ext with
    | .error e => .error e
    | .ok _ => .ok step.amount

/-- `ExecutionManager.executeBorrow` (internal): performs no external
call, returns `step.amount`. -/
def executeBorrow (step : ExecutionStep) : Except ExecErr Nat :=
  if step.amount = 0 then .error (.named "Invalid borrow amount")
  else if step.tokenOut = 0 then .error (.named "Invalid token address")
  else if step.protocol = 0 then .error (.named "Invalid lending protocol")
  else .ok step.amount

/-- `ExecutionManager.executeWithdraw` (internal). -/
def executeWithdraw (ext : Except ExecErr Unit) (step : ExecutionStep) :
    Except ExecErr Nat :=
  if step.amount = 0 then .error (.named "Invalid withdraw amount")
  else if step.tokenOut = 0 then .error (.named "Invalid token address")
  else if step.protocol = 0 then .error (.named "Invalid protocol address")
  else
    match ext with
    | .error e => .error e
    | .ok _ => .ok step.amount

/-- `ExecutionManager.executeUnstake` (internal). -/
def executeUnstake (ext : Except ExecErr Unit) (step : ExecutionStep) :
    Except ExecErr Nat :=
  if step.amount = 0 then .error (.named "Invalid unstake amount")
  else if step.tokenOut = 0 then .error (.named "Invalid token address")
  else if step.protocol = 0 then .error (.named "Invalid staking protocol")
  else
    match ext with
    | .error e => .error e
    | .ok _ => .ok step.amount

/-- One iteration of the `executeSteps` loop: the two in-loop `require`s
followed by the six-way dispatch on `actionType`. -/
def runStep (ext : Except ExecErr Unit) (step : ExecutionStep) :
    Except ExecErr Nat :=
  if step.amount = 0 then
    .error (.named "Step amount must be greater than zero")
  else if step.protocol = 0 then
    .error (.named "Invalid protocol address")
  else
    match step.actionType with
    | .Swap => executeSwap ext step
    | .Stake => executeStake ext step
    | .Supply => executeSupply ext step
    | .Borrow => executeBorrow step
    | .Withdraw => executeWithdraw ext step
    | .Unstake => executeUnstake ext step

/-- The `executeSteps` loop over the remaining steps, carrying the current
step index and the accumulated `totalOutput`; a failing step makes the
whole call revert, discarding the `StepExecuted` events of the earlier
steps along with every other effect. -/
def stepsLoop (ext : ExtEnv) (intentId : Nat) :
    Nat → Nat → List ExecutionStep → Except ExecErr (Nat × List Event)
  | _, acc, [] => .ok (acc, [])
  | i, acc, step :: rest =>
      match runStep (ext i) step with
      | .error e => .error e
      | .ok stepOutput =>
          match stepsLoop ext intentId (i + 1) (acc + stepOutput) rest with
          | .error e => .error e
          | .ok (tot, evs) =>
              .ok (tot, .StepExecutedEvt intentId i step.amount :: evs)

/-- `ExecutionManager.executeSteps`: external function, guarded so that
only the contract itself (`msg.sender == address(this)`) may drive step
execution.  An `Except.error` result models a revert, which by EVM
semantics leaves all contract state unchanged. -/
def executeSteps (self sender : Address) (intentId : Nat)
    (steps : List ExecutionStep) (ext : ExtEnv) :
    Except ExecErr (Nat × List Event) :=
  if sender ≠ self then .error (.named "Can only be called internally")
  else stepsLoop ext intentId 0 0 steps

/-- `ExecutionManager.executeIntent`.  Parameters beyond the call data:
`ext` resolves the opaque venue calls of each step, `timestamp` is
`block.timestamp` (constant across the whole call, so
`executionTime = timestamp - timestamp`), `gasStart`/`gasLeftAfter` are
the two `gasleft()` readings.  Modifier order follows the source:
`validIntent` then `nonReentrant`.  The caller (`msg.sender`) is unused
by the source function and therefore not a parameter; registry calls made
by the contract carry `msg.sender = address(this) = st.managerAddr`. -/
def executeIntent (st : ManagerState) (intentId : Nat)
    (steps : List ExecutionStep) (ext : ExtEnv)
    (timestamp gasStart gasLeftAfter : Nat) :
    Except String (Bool × ManagerState × List Event) :=
  if (lookupIntent st.registry intentId).user = 0 then
    .error "Intent does not exist"
  else if st.locked then
    .error "ReentrancyGuard: reentrant call"
  else if steps.length = 0 then
    .error "Must provide at least one execution step"
  else if 100 < steps.length then
    .error "Too many execution steps"
  else if (lookupIntent st.registry intentId).status ≠ .Parsed then
    .error "Intent not ready for execution"
  else
    let st1 := { st with totalExecutions := st.totalExecutions + 1 }
    let gasUsed := gasStart - gasLeftAfter
    let startedEvs := [Event.IntentExecutionStarted intentId steps.length]
    match executeSteps st1.managerAddr st1.managerAddr intentId steps ext with
    | .ok (output, stepEvs) =>
        match markIntentExecuted st1.registry st1.managerAddr intentId gasUsed timestamp with
        | .error e => .error e
        | .ok (reg', regEvs) =>
            let metrics : ExecutionMetrics :=
              { startGas := gasStart, endGas := gasLeftAfter, gasUsed
              , executionTime := timestamp - timestamp, success := true }
            .ok (true,
              { st1 with
                  registry := reg'
                , successfulExecutions := st1.successfulExecutions + 1
                , executionMetrics :=
                    insertAssoc st1.executionMetrics intentId metrics },
              startedEvs ++ stepEvs ++ regEvs ++
                [.IntentExecutionCompleted intentId gasUsed output,
                 .ExecutionMetricsRecorded intentId gasUsed])
    | .error (.named reason) =>
        match updateIntentStatus st1.registry st1.managerAddr intentId .Failed timestamp with
        | .error e => .error e
        | .ok (reg', regEvs) =>
            let metrics : ExecutionMetrics :=
              { startGas := gasStart, endGas := gasLeftAfter, gasUsed
              , executionTime := timestamp - timestamp, success := false }
            .ok (false,
              { st1 with
                  registry := reg'
                , failedExecutions := st1.failedExecutions + 1
                , executionMetrics :=
                    insertAssoc st1.executionMetrics intentId metrics },
              startedEvs ++ regEvs ++
                [.IntentExecutionFailed intentId reason])
    | .error .lowLevel =>
        match updateIntentStatus st1.registry st1.managerAddr intentId .Failed timestamp with
        | .error e => .error e
        | .ok (reg', regEvs) =>
            .ok (false,
              { st1 with
                  registry := reg'
                , failedExecutions := st1.failedExecutions + 1 },
              startedEvs ++ regEvs ++
                [.IntentExecutionFailed intentId "Low level execution error"])

/-- The prefix of `executeIntent` that runs before the external
`this.executeSteps(...)` self-call: the two modifiers, the three
`require`s, and the `totalExecutions` increment.  The returned state is
the contract state at the moment step dispatch begins, with the
`nonReentrant` lock held. -/
def executeIntentPreamble (st : ManagerState) (intentId : Nat)
    (steps : List ExecutionStep) : Except String ManagerState :=
  if (lookupIntent st.registry intentId).user = 0 then
    .error "Intent does not exist"
  else if st.locked then
    .error "ReentrancyGuard: reentrant call"
  else if steps.length = 0 then
    .error "Must provide at least one execution step"
  else if 100 < steps.length then
    .error "Too many execution steps"
  else if (lookupIntent st.registry intentId).status ≠ .Parsed then
    .error "Intent not ready for execution"
  else
    .ok { st with totalExecutions := st.totalExecutions + 1, locked := true }

/-- `ExecutionManager.estimateGas` (pure). -/
def estimateGas (steps : List ExecutionStep) : Except String Nat :=
  if steps.length = 0 then .error "Must provide at least one step"
  else
    .ok (steps.foldl
      (fun totalGas step =>
        if step.actionType = .Swap then totalGas + 150000
        else if step.actionType = .Stake ∨ step.actionType = .Unstake then
          totalGas + 120000
        else totalGas + 100000)
      21000)

/-- The per-step gas figure the `estimateGas` loop adds for each
`actionType` (`swapGas`, `stakingGas`, `perStepGas` in the source). -/
def stepGas : ActionType → Nat
  | .Swap => 150000
  | .Stake => 120000
  | .Unstake => 120000
  | _ => 100000

/-- `ExecutionManager.getExecutionStats`. -/
def getExecutionStats (st : ManagerState) : Nat × Nat × Nat :=
  (st.totalExecutions, st.successfulExecutions, st.failedExecutions)

/-- `ExecutionManager.getSuccessRate`. -/
def getSuccessRate (st : ManagerState) : Nat :=
  if st.totalExecutions = 0 then 0
  else st.successfulExecutions * 100 / st.totalExecutions

/-! ## Observation helpers -/

deriving instance DecidableEq for Except

def isOkB {ε α : Type} : Except ε α → Bool
  | .ok _ => true
  | .error _ => false

def Event.isStepExecutedEvt : Event → Bool
  | .StepExecutedEvt _ _ _ => true
  | _ => false

def Event.isExecutionCompleted : Event → Bool
  | .IntentExecutionCompleted _ _ _ => true
  | _ => false

def Event.isFailedTransition : Event → Bool
  | .IntentStatusUpdated _ _ newStatus => newStatus == IntentStatus.Failed
  | _ => false

/-- The realized totals reported by `IntentExecutionCompleted` events:
the only place an execution's accumulated output is recorded. -/
def completedOutputs (evs : List Event) : List Nat :=
  evs.filterMap fun e =>
    match e with
    | .IntentExecutionCompleted _ _ o => some o
    | _ => none

def resultState (r : Except String (Bool × ManagerState × List Event))
    (dflt : ManagerState) : ManagerState :=
  match r with
  | .ok (_, st, _) => st
  | .error _ => dflt

def resultEvents (r : Except String (Bool × ManagerState × List Event)) :
    List Event :=
  match r with
  | .ok (_, _, evs) => evs
  | .error _ => []

/-! ## Registry operation sequences (for the uniqueness invariant) -/

/-- One mutating registry call, as issued by an arbitrary caller. -/
inductive RegOp
  | register (sender : Address) (nl : String) (pd : List Nat) (g ts : Nat)
  | setStatus (sender : Address) (id : Nat) (ns : IntentStatus) (ts : Nat)
  | markExec (sender : Address) (id g ts : Nat)
  | cancel (sender : Address) (id : Nat)

/-- Apply one registry call; a reverted call leaves the state unchanged. -/
def applyOp (hashFn : Address → String → Nat → Nat → Nat)
    (st : RegistryState) : RegOp → RegistryState
  | .register sender nl pd g ts =>
      match registerIntent hashFn st sender nl pd g ts with
      | .ok (_, st', _) => st'
      | .error _ => st
  | .setStatus sender id ns ts =>
      match updateIntentStatus st sender id ns ts with
      | .ok (st', _) => st'
      | .error _ => st
  | .markExec sender id g ts =>
      match markIntentExecuted st sender id g ts with
      | .ok (st', _) => st'
      | .error _ => st
  | .cancel sender id =>
      match cancelIntent st sender id with
      | .ok (st', _) => st'
      | .error _ => st

def applyOps (hashFn : Address → String → Nat → Nat → Nat)
    (st : RegistryState) (ops : List RegOp) : RegistryState :=
  List.foldl (applyOp hashFn) st ops

/-! ## Concrete fixtures

A deployment with the `ExecutionManager` at address `900`, which is also
the registry owner (hence an executor), and a user at address `5`.
`constHash`/`seqHash` are concrete stand-ins for the id hash. -/

def constHash : Address → String → Nat → Nat → Nat := fun _ _ _ _ => 777

def seqHash : Address → String → Nat → Nat → Nat := fun _ _ _ n => 1000 + n

def regInit : RegistryState :=
  { intents := [], allIntentIds := [], userIntents := [], userIntentCount := []
  , owner := 900, executors := [] }

/-- The spec's concrete scenario registration: user `5` registers
`"swap 100 A for B"` with `costEstimate = 150000` at time `50`. -/
def regAfterRegister : RegistryState :=
  match registerIntent constHash regInit 5 "swap 100 A for B" [] 150000 50 with
  | .ok (_, st, _) => st
  | .error _ => regInit

def mgrInit : ManagerState :=
  { registry := regAfterRegister, managerAddr := 900, totalExecutions := 0
  , successfulExecutions := 0, failedExecutions := 0
  , executionMetrics := [], locked := false }

/-- The spec's concrete scenario step: one `Swap`, `amount = 100`,
`minOutput = 95`. -/
def swapStep : ExecutionStep :=
  { actionType := .Swap, protocol := 10, tokenIn := 11, tokenOut := 12
  , amount := 100, minOutput := 95 }

/-- A `Swap` step engineered to fail: the simulated venue realizes
`100 * 95 / 100 = 95`, below this `minOutput` of `96`. -/
def badSwapStep : ExecutionStep := { swapStep with minOutput := 96 }

def okExt : ExtEnv := fun _ => .ok ()

/-- An environment whose venue calls revert without a reason string. -/
def lowExt : ExtEnv := fun _ => .error .lowLevel

def scenarioResult : Except String (Bool × ManagerState × List Event) :=
  executeIntent mgrInit 777 [swapStep] okExt 60 1000000 400000

def scenarioState : ManagerState := resultState scenarioResult mgrInit

def scenarioEvents : List Event := resultEvents scenarioResult

def failedResult : Except String (Bool × ManagerState × List Event) :=
  executeIntent mgrInit 777 [badSwapStep] okExt 60 1000000 400000

def failedState : ManagerState := resultState failedResult mgrInit

def failedEvents : List Event := resultEvents failedResult

def lowResult : Except String (Bool × ManagerState × List Event) :=
  executeIntent mgrInit 777 [swapStep] lowExt 60 1000000 400000

def lowState : ManagerState := resultState lowResult mgrInit

def lowEvents : List Event := resultEvents lowResult

/-- The registry after the scenario execution completed intent `777`. -/
def regCompleted : RegistryState := scenarioState.registry

def regPendingAgain : RegistryState :=
  match updateIntentStatus regCompleted 900 777 .Pending 70 with
  | .ok (st, _) => st
  | .error _ => regCompleted

/-- The contract state at the moment the scenario attempt dispatches its
steps (after `executeIntent`'s preamble, reentrancy lock held). -/
def midState : ManagerState :=
  match executeIntentPreamble mgrInit 777 [swapStep] with
  | .ok s => s
  | .error _ => mgrInit

def regOrKeep (hashFn : Address → String → Nat → Nat → Nat)
    (st : RegistryState) (sender : Address) (nl : String) (pd : List Nat)
    (g ts : Nat) : RegistryState :=
  match registerIntent hashFn st sender nl pd g ts with
  | .ok (_, st', _) => st'
  | .error _ => st

def execOrKeep (st : ManagerState) (id : Nat) (steps : List ExecutionStep)
    (ext : ExtEnv) : ManagerState :=
  match executeIntent st id steps ext 60 1000000 400000 with
  | .ok (_, st', _) => st'
  | .error _ => st

/-- Four registered intents (ids `1000`–`1003`). -/
def reg4 : RegistryState :=
  regOrKeep seqHash
    (regOrKeep seqHash
      (regOrKeep seqHash
        (regOrKeep seqHash regInit 5 "intent one" [] 150000 50)
        5 "intent two" [] 150000 51)
      5 "intent three" [] 150000 52)
    5 "intent four" [] 150000 53

def mgr4 : ManagerState :=
  { registry := reg4, managerAddr := 900, totalExecutions := 0
  , successfulExecutions := 0, failedExecutions := 0
  , executionMetrics := [], locked := false }

/-- Three successful executions followed by one failed execution. -/
def scenario31 : ManagerState :=
  execOrKeep
    (execOrKeep
      (execOrKeep
        (execOrKeep mgr4 1000 [swapStep] okExt)
        1001 [swapStep] okExt)
      1002 [swapStep] okExt)
    1003 [badSwapStep] okExt

/-! ## Association-list lemmas -/

theorem lookup_insertAssoc_self {α : Type} (m : List (Nat × α)) (id : Nat)
    (v : α) : lookupAssoc (insertAssoc m id v) id = some v := by
  induction m with
  | nil => simp [insertAssoc, lookupAssoc]
  | cons hd tl ih =>
      obtain ⟨k, w⟩ := hd
      by_cases h : k = id
      · subst h; simp [insertAssoc, lookupAssoc]
      · simp [insertAssoc, lookupAssoc, h, ih]

theorem lookup_insertAssoc_ne {α : Type} (m : List (Nat × α)) (k id : Nat)
    (v : α) (h : k ≠ id) :
    lookupAssoc (insertAssoc m id v) k = lookupAssoc m k := by
  induction m with
  | nil => simp [insertAssoc, lookupAssoc, Ne.symm h]
  | cons hd tl ih =>
      obtain ⟨k', w⟩ := hd
      by_cases h' : k' = id
      · subst h'
        simp [insertAssoc, lookupAssoc, Ne.symm h]
      · by_cases h'' : k' = k
        · subst h''; simp [insertAssoc, lookupAssoc, h']
        · simp [insertAssoc, lookupAssoc, h', h'', ih]

theorem mem_keys_insertAssoc {α : Type} (m : List (Nat × α)) (id x : Nat)
    (v : α) :
    x ∈ (insertAssoc m id v).map Prod.fst ↔ x = id ∨ x ∈ m.map Prod.fst := by
  induction m with
  | nil => simp [insertAssoc]
  | cons hd tl ih =>
      obtain ⟨k, w⟩ := hd
      by_cases h : k = id
      · subst h; simp [insertAssoc]
      · simp only [insertAssoc, if_neg h, List.map_cons, List.mem_cons, ih]
        tauto

theorem keys_nodup_insertAssoc {α : Type} (m : List (Nat × α)) (id : Nat)
    (v : α) (h : (m.map Prod.fst).Nodup) :
    ((insertAssoc m id v).map Prod.fst).Nodup := by
  induction m with
  | nil => simp [insertAssoc]
  | cons hd tl ih =>
      obtain ⟨k, w⟩ := hd
      simp only [List.map_cons, List.nodup_cons] at h
      by_cases hk : k = id
      · subst hk
        simpa [insertAssoc] using h
      · simp only [insertAssoc, if_neg hk, List.map_cons, List.nodup_cons]
        refine ⟨?_, ih h.2⟩
        intro hmem
        rcases (mem_keys_insertAssoc tl id k v).mp hmem with h' | h'
        · exact hk h'
        · exact h.1 h'

theorem lookupIntent_insert_self (st : RegistryState) (rest : RegistryState)
    (id : Nat) (v : Intent)
    (h : rest.intents = insertAssoc st.intents id v) :
    lookupIntent rest id = v := by
  simp [lookupIntent, h, lookup_insertAssoc_self]

theorem lookupIntent_insert_ne (st : RegistryState) (rest : RegistryState)
    (id k : Nat) (v : Intent)
    (h : rest.intents = insertAssoc st.intents id v) (hk : k ≠ id) :
    lookupIntent rest k = lookupIntent st k := by
  simp [lookupIntent, h, lookup_insertAssoc_ne _ _ _ _ hk]

/-! ## Registry call characterizations -/

theorem updateIntentStatus_ok_of (st : RegistryState) (sender : Address)
    (id : Nat) (ns : IntentStatus) (ts : Nat)
    (hx : isExecutor st sender = true)
    (hu : (lookupIntent st id).user ≠ 0) :
    updateIntentStatus st sender id ns ts =
      .ok ({ st with intents := insertAssoc st.intents id (setStatusIntent (lookupIntent st id) ns ts) },
           [.IntentStatusUpdated id (lookupIntent st id).status ns]) := by
  simp [updateIntentStatus, hx, hu]

theorem markIntentExecuted_ok_of (st : RegistryState) (sender : Address)
    (id g ts : Nat)
    (hx : isExecutor st sender = true)
    (hu : (lookupIntent st id).user ≠ 0)
    (hc : (lookupIntent st id).status ≠ .Completed) :
    markIntentExecuted st sender id g ts =
      .ok ({ st with intents := insertAssoc st.intents id (completeIntent (lookupIntent st id) id g ts) },
           [.IntentExecuted id g,
            .IntentStatusUpdated id (lookupIntent st id).status .Completed]) := by
  simp [markIntentExecuted, hx, hu, hc]

theorem registerIntent_ok_inv (hashFn : Address → String → Nat → Nat → Nat)
    (st : RegistryState) (sender : Address) (nl : String) (pd : List Nat)
    (g ts id' : Nat) (st' : RegistryState) (evs : List Event)
    (h : registerIntent hashFn st sender nl pd g ts = .ok (id', st', evs)) :
    id' = hashFn sender nl ts st.allIntentIds.length ∧
    (lookupIntent st id').user = 0 ∧
    st'.intents = insertAssoc st.intents id'
      (freshIntent sender id' nl pd g ts) := by
  simp only [registerIntent] at h
  split_ifs at h with h1 h2 h3 h4
  simp only [Except.ok.injEq, Prod.mk.injEq] at h
  obtain ⟨hid, hst, _⟩ := h
  subst hid
  refine ⟨rfl, by simpa using h4, ?_⟩
  rw [← hst]

theorem updateIntentStatus_ok_inv (st : RegistryState) (sender : Address)
    (id : Nat) (ns : IntentStatus) (ts : Nat) (st' : RegistryState)
    (evs : List Event)
    (h : updateIntentStatus st sender id ns ts = .ok (st', evs)) :
    (lookupIntent st id).user ≠ 0 ∧
    st'.intents = insertAssoc st.intents id
      (setStatusIntent (lookupIntent st id) ns ts) := by
  simp only [updateIntentStatus] at h
  split_ifs at h with h1 h2
  simp only [Except.ok.injEq, Prod.mk.injEq] at h
  refine ⟨h2, ?_⟩
  rw [← h.1]

theorem markIntentExecuted_ok_inv (st : RegistryState) (sender : Address)
    (id g ts : Nat) (st' : RegistryState) (evs : List Event)
    (h : markIntentExecuted st sender id g ts = .ok (st', evs)) :
    (lookupIntent st id).user ≠ 0 ∧
    (lookupIntent st id).status ≠ .Completed ∧
    st'.intents = insertAssoc st.intents id
      (completeIntent (lookupIntent st id) id g ts) := by
  simp only [markIntentExecuted] at h
  split_ifs at h with h1 h2 h3
  simp only [Except.ok.injEq, Prod.mk.injEq] at h
  refine ⟨h2, h3, ?_⟩
  rw [← h.1]

/-! ## Execution loop and orchestrator lemmas -/

theorem stepsLoop_error_at (ext : ExtEnv) (intentId : Nat) (e : ExecErr) :
    ∀ (l : List ExecutionStep) (i k acc : Nat) (hi : i < l.length),
      runStep (ext (k + i)) (l.get ⟨i, hi⟩) = .error e →
      (∀ j (hj : j < i),
        isOkB (runStep (ext (k + j)) (l.get ⟨j, Nat.lt_trans hj hi⟩)) = true) →
      stepsLoop ext intentId k acc l = .error e := by
  intro l
  induction l with
  | nil =>
      intro i k acc hi
      exact absurd hi (by simp)
  | cons step rest ih =>
      intro i k acc hi hfail hpre
      cases i with
      | zero =>
          simp only [List.get, Nat.add_zero] at hfail
          simp only [stepsLoop]
          rw [hfail]
      | succ i' =>
          have h0 : isOkB (runStep (ext k) step) = true := by
            have h := hpre 0 (Nat.succ_pos i')
            simpa using h
          obtain ⟨v, hv⟩ : ∃ v, runStep (ext k) step = .ok v := by
            cases hrs : runStep (ext k) step with
            | error e' => rw [hrs] at h0; simp [isOkB] at h0
            | ok v => exact ⟨v, rfl⟩
          simp only [stepsLoop]
          rw [hv]
          simp only []
          have hfail' : runStep (ext ((k + 1) + i'))
              (rest.get ⟨i', by simpa using hi⟩) = .error e := by
            have harith : (k + 1) + i' = k + (i' + 1) := by omega
            rw [harith]
            simpa using hfail
          have hpre' : ∀ j (hj : j < i'),
              isOkB (runStep (ext ((k + 1) + j))
                (rest.get ⟨j, Nat.lt_trans hj (by simpa using hi)⟩)) = true := by
            intro j hj
            have harith : (k + 1) + j = k + (j + 1) := by omega
            rw [harith]
            have h := hpre (j + 1) (Nat.succ_lt_succ hj)
            simpa using h
          rw [ih i' (k + 1) (acc + v) (by simpa using hi) hfail' hpre']

/-- `executeIntent` reads its step list only through its length (the
guards and the `IntentExecutionStarted` event) and through the dispatch
loop's outcome. -/
theorem executeIntent_congr (st : ManagerState) (intentId : Nat)
    (steps steps' : List ExecutionStep) (ext : ExtEnv) (ts gs gl : Nat)
    (hlen : steps.length = steps'.length)
    (hloop : stepsLoop ext intentId 0 0 steps =
      stepsLoop ext intentId 0 0 steps') :
    executeIntent st intentId steps ext ts gs gl =
      executeIntent st intentId steps' ext ts gs gl := by
  simp only [executeIntent, executeSteps, hlen, hloop]

/-- With the `ReentrancyGuard` lock held, `executeIntent` rejects every
call for an existing intent with the guard's revert reason. -/
theorem executeIntent_locked (st : ManagerState) (intentId : Nat)
    (steps : List ExecutionStep) (ext : ExtEnv) (ts gs gl : Nat)
    (huser : (lookupIntent st.registry intentId).user ≠ 0)
    (hlock : st.locked = true) :
    executeIntent st intentId steps ext ts gs gl =
      .error "ReentrancyGuard: reentrant call" := by
  rw [executeIntent, if_neg huser, if_pos hlock]

theorem executeIntent_named_fail (st : ManagerState) (intentId : Nat)
    (steps : List ExecutionStep) (ext : ExtEnv) (ts gs gl : Nat)
    (reason : String)
    (huser : (lookupIntent st.registry intentId).user ≠ 0)
    (hlock : st.locked = false)
    (hne : steps.length ≠ 0)
    (hlen : steps.length ≤ 100)
    (hparsed : (lookupIntent st.registry intentId).status = IntentStatus.Parsed)
    (hexec : isExecutor st.registry st.managerAddr = true)
    (hsteps : stepsLoop ext intentId 0 0 steps = .error (.named reason)) :
    executeIntent st intentId steps ext ts gs gl =
      .ok (false,
        { st with
            registry := { st.registry with intents := insertAssoc st.registry.intents intentId (setStatusIntent (lookupIntent st.registry intentId) .Failed ts) }
          , totalExecutions := st.totalExecutions + 1
          , failedExecutions := st.failedExecutions + 1
          , executionMetrics := insertAssoc st.executionMetrics intentId ({ startGas := gs, endGas := gl, gasUsed := gs - gl, executionTime := ts - ts, success := false }) },
        [Event.IntentExecutionStarted intentId steps.length,
         Event.IntentStatusUpdated intentId (lookupIntent st.registry intentId).status .Failed,
         Event.IntentExecutionFailed intentId reason]) := by
  have hup := updateIntentStatus_ok_of st.registry st.managerAddr intentId .Failed ts hexec huser
  rw [executeIntent]
  rw [if_neg huser]
  rw [if_neg (by simp [hlock])]
  rw [if_neg hne]
  rw [if_neg (by omega)]
  rw [if_neg (by simp [hparsed])]
  simp only [executeSteps, ne_eq, not_true_eq_false, if_false, ite_self]
  rw [hsteps]
  rw [hup]
  simp

theorem executeIntent_lowlevel_fail (st : ManagerState) (intentId : Nat)
    (steps : List ExecutionStep) (ext : ExtEnv) (ts gs gl : Nat)
    (huser : (lookupIntent st.registry intentId).user ≠ 0)
    (hlock : st.locked = false)
    (hne : steps.length ≠ 0)
    (hlen : steps.length ≤ 100)
    (hparsed : (lookupIntent st.registry intentId).status = IntentStatus.Parsed)
    (hexec : isExecutor st.registry st.managerAddr = true)
    (hsteps : stepsLoop ext intentId 0 0 steps = .error .lowLevel) :
    executeIntent st intentId steps ext ts gs gl =
      .ok (false,
        { st with
            registry := { st.registry with intents := insertAssoc st.registry.intents intentId (setStatusIntent (lookupIntent st.registry intentId) .Failed ts) }
          , totalExecutions := st.totalExecutions + 1
          , failedExecutions := st.failedExecutions + 1 },
        [Event.IntentExecutionStarted intentId steps.length,
         Event.IntentStatusUpdated intentId (lookupIntent st.registry intentId).status .Failed,
         Event.IntentExecutionFailed intentId "Low level execution error"]) := by
  have hup := updateIntentStatus_ok_of st.registry st.managerAddr intentId .Failed ts hexec huser
  rw [executeIntent]
  rw [if_neg huser]
  rw [if_neg (by simp [hlock])]
  rw [if_neg hne]
  rw [if_neg (by omega)]
  rw [if_neg (by simp [hparsed])]
  simp only [executeSteps, ne_eq, not_true_eq_false, if_false, ite_self]
  rw [hsteps]
  rw [hup]
  simp

theorem executeIntent_success_run (st : ManagerState) (intentId : Nat)
    (steps : List ExecutionStep) (ext : ExtEnv) (ts gs gl : Nat)
    (output : Nat) (stepEvs : List Event)
    (huser : (lookupIntent st.registry intentId).user ≠ 0)
    (hlock : st.locked = false)
    (hne : steps.length ≠ 0)
    (hlen : steps.length ≤ 100)
    (hparsed : (lookupIntent st.registry intentId).status = IntentStatus.Parsed)
    (hexec : isExecutor st.registry st.managerAddr = true)
    (hsteps : stepsLoop ext intentId 0 0 steps = .ok (output, stepEvs)) :
    executeIntent st intentId steps ext ts gs gl =
      .ok (true,
        { st with
            registry := { st.registry with intents := insertAssoc st.registry.intents intentId (completeIntent (lookupIntent st.registry intentId) intentId (gs - gl) ts) }
          , totalExecutions := st.totalExecutions + 1
          , successfulExecutions := st.successfulExecutions + 1
          , executionMetrics := insertAssoc st.executionMetrics intentId ({ startGas := gs, endGas := gl, gasUsed := gs - gl, executionTime := ts - ts, success := true }) },
        Event.IntentExecutionStarted intentId steps.length ::
          (stepEvs ++
            [Event.IntentExecuted intentId (gs - gl),
             Event.IntentStatusUpdated intentId (lookupIntent st.registry intentId).status .Completed,
             Event.IntentExecutionCompleted intentId (gs - gl) output,
             Event.ExecutionMetricsRecorded intentId (gs - gl)])) := by
  have hmk := markIntentExecuted_ok_of st.registry st.managerAddr intentId (gs - gl) ts hexec huser
    (by rw [hparsed]; simp)
  rw [executeIntent]
  rw [if_neg huser]
  rw [if_neg (by simp [hlock])]
  rw [if_neg hne]
  rw [if_neg (by omega)]
  rw [if_neg (by simp [hparsed])]
  simp only [executeSteps, ne_eq, not_true_eq_false, if_false, ite_self]
  rw [hsteps]
  rw [hmk]
  simp

theorem cancelIntent_ok_inv (st : RegistryState) (sender : Address)
    (id : Nat) (st' : RegistryState) (evs : List Event)
    (h : cancelIntent st sender id = .ok (st', evs)) :
    (lookupIntent st id).user ≠ 0 ∧
    st'.intents = insertAssoc st.intents id
      (cancelledIntent (lookupIntent st id)) := by
  simp only [cancelIntent] at h
  split_ifs at h with h1 h2 h3
  simp only [Except.ok.injEq, Prod.mk.injEq] at h
  refine ⟨h1, ?_⟩
  rw [← h.1]

/-! ## Gas estimation lemmas -/

theorem estimateGas_foldl (l : List ExecutionStep) :
    ∀ n : Nat,
      l.foldl (fun totalGas step =>
        if step.actionType = .Swap then totalGas + 150000
        else if step.actionType = .Stake ∨ step.actionType = .Unstake then
          totalGas + 120000
        else totalGas + 100000) n
      = n + (l.map (fun s => stepGas s.actionType)).sum := by
  induction l with
  | nil => intro n; simp
  | cons s rest ih =>
      intro n
      simp only [List.foldl_cons, List.map_cons, List.sum_cons]
      rw [ih]
      have hs : (if s.actionType = ActionType.Swap then n + 150000
          else if s.actionType = ActionType.Stake ∨ s.actionType = ActionType.Unstake then
            n + 120000
          else n + 100000) = n + stepGas s.actionType := by
        cases s.actionType <;> simp [stepGas]
      rw [hs]
      omega

theorem estimateGas_eq_sum (steps : List ExecutionStep) (h : steps ≠ []) :
    estimateGas steps =
      .ok (21000 + (steps.map (fun s => stepGas s.actionType)).sum) := by
  rw [estimateGas, if_neg (by simpa using h)]
  rw [estimateGas_foldl steps 21000]

/-! ## Registry-operation invariant lemmas -/

theorem applyOp_preserves_user (hashFn : Address → String → Nat → Nat → Nat)
    (st : RegistryState) (op : RegOp) (id : Nat)
    (h : (lookupIntent st id).user ≠ 0) :
    (lookupIntent (applyOp hashFn st op) id).user ≠ 0 := by
  cases op with
  | register sender nl pd g ts =>
      simp only [applyOp]
      split
      · rename_i id' st' evs heq
        obtain ⟨hid, hzero, hins⟩ :=
          registerIntent_ok_inv hashFn st sender nl pd g ts id' st' evs heq
        by_cases hk : id = id'
        · rw [hk] at h; exact absurd hzero h
        · rw [lookupIntent_insert_ne st st' id' id _ hins hk]; exact h
      · exact h
  | setStatus sender id₀ ns ts =>
      simp only [applyOp]
      split
      · rename_i st' evs heq
        obtain ⟨hu, hins⟩ := updateIntentStatus_ok_inv st sender id₀ ns ts st' evs heq
        by_cases hk : id = id₀
        · subst hk
          rw [lookupIntent_insert_self st st' id _ hins]
          simpa [setStatusIntent] using h
        · rw [lookupIntent_insert_ne st st' id₀ id _ hins hk]; exact h
      · exact h
  | markExec sender id₀ g ts =>
      simp only [applyOp]
      split
      · rename_i st' evs heq
        obtain ⟨hu, hc, hins⟩ := markIntentExecuted_ok_inv st sender id₀ g ts st' evs heq
        by_cases hk : id = id₀
        · subst hk
          rw [lookupIntent_insert_self st st' id _ hins]
          simpa [completeIntent] using h
        · rw [lookupIntent_insert_ne st st' id₀ id _ hins hk]; exact h
      · exact h
  | cancel sender id₀ =>
      simp only [applyOp]
      split
      · rename_i st' evs heq
        obtain ⟨hu, hins⟩ := cancelIntent_ok_inv st sender id₀ st' evs heq
        by_cases hk : id = id₀
        · subst hk
          rw [lookupIntent_insert_self st st' id _ hins]
          simpa [cancelledIntent] using h
        · rw [lookupIntent_insert_ne st st' id₀ id _ hins hk]; exact h
      · exact h

theorem applyOps_preserves_user (hashFn : Address → String → Nat → Nat → Nat)
    (ops : List RegOp) :
    ∀ (st : RegistryState) (id : Nat),
      (lookupIntent st id).user ≠ 0 →
      (lookupIntent (applyOps hashFn st ops) id).user ≠ 0 := by
  induction ops with
  | nil => intro st id h; exact h
  | cons op rest ih =>
      intro st id h
      simp only [applyOps, List.foldl_cons]
      exact ih (applyOp hashFn st op) id (applyOp_preserves_user hashFn st op id h)

theorem applyOp_preserves_keys_nodup
    (hashFn : Address → String → Nat → Nat → Nat)
    (st : RegistryState) (op : RegOp)
    (h : (st.intents.map Prod.fst).Nodup) :
    ((applyOp hashFn st op).intents.map Prod.fst).Nodup := by
  cases op with
  | register sender nl pd g ts =>
      simp only [applyOp]
      split
      · rename_i id' st' evs heq
        obtain ⟨_, _, hins⟩ :=
          registerIntent_ok_inv hashFn st sender nl pd g ts id' st' evs heq
        rw [hins]
        exact keys_nodup_insertAssoc _ _ _ h
      · exact h
  | setStatus sender id₀ ns ts =>
      simp only [applyOp]
      split
      · rename_i st' evs heq
        obtain ⟨_, hins⟩ := updateIntentStatus_ok_inv st sender id₀ ns ts st' evs heq
        rw [hins]
        exact keys_nodup_insertAssoc _ _ _ h
      · exact h
  | markExec sender id₀ g ts =>
      simp only [applyOp]
      split
      · rename_i st' evs heq
        obtain ⟨_, _, hins⟩ := markIntentExecuted_ok_inv st sender id₀ g ts st' evs heq
        rw [hins]
        exact keys_nodup_insertAssoc _ _ _ h
      · exact h
  | cancel sender id₀ =>
      simp only [applyOp]
      split
      · rename_i st' evs heq
        obtain ⟨_, hins⟩ := cancelIntent_ok_inv st sender id₀ st' evs heq
        rw [hins]
        exact keys_nodup_insertAssoc _ _ _ h
      · exact h

theorem applyOps_preserves_keys_nodup
    (hashFn : Address → String → Nat → Nat → Nat) (ops : List RegOp) :
    ∀ st : RegistryState,
      (st.intents.map Prod.fst).Nodup →
      ((applyOps hashFn st ops).intents.map Prod.fst).Nodup := by
  induction ops with
  | nil => intro st h; exact h
  | cons op rest ih =>
      intro st h
      simp only [applyOps, List.foldl_cons]
      exact ih (applyOp hashFn st op) (applyOp_preserves_keys_nodup hashFn st op h)

/-! ## Claim theorems -/

/-- C1: all-or-nothing execution.  For every intent in status `Parsed` and
every step list in which step `i` fails while all earlier steps succeed,
`executeIntent` returns `false`, leaves the intent with status `Failed`,
leaves `successfulExecutions` untouched, emits no `StepExecuted` and no
`IntentExecutionCompleted` event (the realized total is only ever recorded
by the latter), and its outcome is entirely independent of the steps after
`i`: replacing them by any other steps (same list length) yields the
identical result. -/
theorem C1_all_or_nothing
    (st : ManagerState) (intentId : Nat) (steps : List ExecutionStep)
    (ext : ExtEnv) (ts gs gl : Nat) (i : Nat) (hi : i < steps.length)
    (huser : (lookupIntent st.registry intentId).user ≠ 0)
    (hlock : st.locked = false)
    (hlen : steps.length ≤ 100)
    (hparsed : (lookupIntent st.registry intentId).status = IntentStatus.Parsed)
    (hexec : isExecutor st.registry st.managerAddr = true)
    (hfail : isOkB (runStep (ext i) (steps.get ⟨i, hi⟩)) = false)
    (hpre : ∀ j (hj : j < i),
      isOkB (runStep (ext j) (steps.get ⟨j, Nat.lt_trans hj hi⟩)) = true) :
    ∃ st' evs,
      executeIntent st intentId steps ext ts gs gl = .ok (false, st', evs) ∧
      (lookupIntent st'.registry intentId).status = .Failed ∧
      st'.successfulExecutions = st.successfulExecutions ∧
      (∀ e ∈ evs, e.isStepExecutedEvt = false ∧ e.isExecutionCompleted = false) ∧
      (∀ steps' : List ExecutionStep, steps'.length = steps.length →
        steps'.take (i + 1) = steps.take (i + 1) →
        executeIntent st intentId steps' ext ts gs gl =
          executeIntent st intentId steps ext ts gs gl) := by
  obtain ⟨e, he⟩ : ∃ e, runStep (ext i) (steps.get ⟨i, hi⟩) = .error e := by
    cases hrs : runStep (ext i) (steps.get ⟨i, hi⟩) with
    | error e => exact ⟨e, rfl⟩
    | ok v => rw [hrs] at hfail; simp [isOkB] at hfail
  have hsteps : stepsLoop ext intentId 0 0 steps = .error e := by
    refine stepsLoop_error_at ext intentId e steps i 0 0 hi ?_ ?_
    · rw [Nat.zero_add]; exact he
    · intro j hj; rw [Nat.zero_add]; exact hpre j hj
  have hcongr : ∀ steps' : List ExecutionStep, steps'.length = steps.length →
      steps'.take (i + 1) = steps.take (i + 1) →
      executeIntent st intentId steps' ext ts gs gl =
        executeIntent st intentId steps ext ts gs gl := by
    intro steps' hlen' htake
    have hi' : i < steps'.length := by omega
    have hget : ∀ j (hj : j ≤ i),
        steps'.get ⟨j, by omega⟩ = steps.get ⟨j, by omega⟩ := by
      intro j hj
      have hq : steps'[j]? = steps[j]? := by
        have t1 : (steps'.take (i + 1))[j]? = steps'[j]? :=
          List.getElem?_take_of_lt (by omega)
        have t2 : (steps.take (i + 1))[j]? = steps[j]? :=
          List.getElem?_take_of_lt (by omega)
        rw [← t1, ← t2, htake]
      have g1 : steps'[j]? = some (steps'.get ⟨j, by omega⟩) := by
        simp [List.getElem?_eq_getElem, List.get_eq_getElem]
      have g2 : steps[j]? = some (steps.get ⟨j, by omega⟩) := by
        simp [List.getElem?_eq_getElem, List.get_eq_getElem]
      rw [g1, g2] at hq
      exact Option.some.inj hq
    have hsteps' : stepsLoop ext intentId 0 0 steps' = .error e := by
      refine stepsLoop_error_at ext intentId e steps' i 0 0 hi' ?_ ?_
      · rw [Nat.zero_add, hget i (le_refl i)]; exact he
      · intro j hj
        rw [Nat.zero_add, hget j (Nat.le_of_lt hj)]
        exact hpre j hj
    exact executeIntent_congr st intentId steps' steps ext ts gs gl
      (by omega) (by rw [hsteps, hsteps'])
  cases e with
  | named reason =>
      refine ⟨_, _, executeIntent_named_fail st intentId steps ext ts gs gl reason
        huser hlock (by omega) hlen hparsed hexec hsteps, ?_, rfl, ?_, hcongr⟩
      · simp [lookupIntent, lookup_insertAssoc_self, setStatusIntent]
      · intro ev hev
        simp only [List.mem_cons, List.mem_singleton, List.not_mem_nil] at hev
        rcases hev with rfl | rfl | rfl | h
        · exact ⟨rfl, rfl⟩
        · exact ⟨rfl, rfl⟩
        · exact ⟨rfl, rfl⟩
        · cases h
  | lowLevel =>
      refine ⟨_, _, executeIntent_lowlevel_fail st intentId steps ext ts gs gl
        huser hlock (by omega) hlen hparsed hexec hsteps, ?_, rfl, ?_, hcongr⟩
      · simp [lookupIntent, lookup_insertAssoc_self, setStatusIntent]
      · intro ev hev
        simp only [List.mem_cons, List.mem_singleton, List.not_mem_nil] at hev
        rcases hev with rfl | rfl | rfl | h
        · exact ⟨rfl, rfl⟩
        · exact ⟨rfl, rfl⟩
        · exact ⟨rfl, rfl⟩
        · cases h

/-- Witness for C1 at the concrete deployment fixture: intent `777` in
status `Parsed`, a single `Swap` step whose realized output `95` is below
its `minOutput` of `96` (so step `0` fails). -/
theorem C1_all_or_nothing_witness :
    ∃ st' evs,
      executeIntent mgrInit 777 [badSwapStep] okExt 60 1000000 400000 =
        .ok (false, st', evs) ∧
      (lookupIntent st'.registry 777).status = .Failed ∧
      st'.successfulExecutions = mgrInit.successfulExecutions ∧
      (∀ e ∈ evs, e.isStepExecutedEvt = false ∧ e.isExecutionCompleted = false) ∧
      (∀ steps' : List ExecutionStep, steps'.length = [badSwapStep].length →
        steps'.take (0 + 1) = [badSwapStep].take (0 + 1) →
        executeIntent mgrInit 777 steps' okExt 60 1000000 400000 =
          executeIntent mgrInit 777 [badSwapStep] okExt 60 1000000 400000) :=
  C1_all_or_nothing mgrInit 777 [badSwapStep] okExt 60 1000000 400000 0
    (by decide) (by decide) (by decide) (by decide) (by decide) (by decide)
    (by decide) (fun j hj => absurd hj (Nat.not_lt_zero j))

/-- C2 counterexample: after intent `777` completed, `updateIntentStatus`
does not fail with an invalid-transition error; it succeeds and moves the
`Completed` intent back to `Pending`. -/
theorem C2_completed_counterexample :
    (lookupIntent regCompleted 777).status = .Completed ∧
    isOkB (updateIntentStatus regCompleted 900 777 .Pending 70) = true ∧
    (lookupIntent regPendingAgain 777).status = .Pending := by
  refine ⟨by decide, by decide, by decide⟩

/-- C2 (amended): `updateIntentStatus` validates only intent existence and
executor authorization; it writes any requested status unconditionally —
in particular a `Completed` intent is not terminal and can be moved to any
status, including non-terminal ones. -/
theorem C2_no_transition_validation (st : RegistryState) (sender : Address)
    (id : Nat) (ns : IntentStatus) (ts : Nat)
    (hx : isExecutor st sender = true)
    (hu : (lookupIntent st id).user ≠ 0) :
    ∃ reg' evs, updateIntentStatus st sender id ns ts = .ok (reg', evs) ∧
      (lookupIntent reg' id).status = ns := by
  refine ⟨_, _, updateIntentStatus_ok_of st sender id ns ts hx hu, ?_⟩
  simp [lookupIntent, lookup_insertAssoc_self, setStatusIntent]

/-- Witness for C2 (amended) at the concrete fixture: the executor moves
the `Completed` intent `777` back to `Pending`. -/
theorem C2_no_transition_validation_witness :
    ∃ reg' evs, updateIntentStatus regCompleted 900 777 .Pending 70 =
      .ok (reg', evs) ∧ (lookupIntent reg' 777).status = .Pending :=
  C2_no_transition_validation regCompleted 900 777 .Pending 70
    (by decide) (by decide)

/-- C3 counterexample: a single failed attempt (one `Swap` step whose
realized output `95` is below `minOutput = 96`) reaches the orchestrator
(`totalExecutions` becomes `1`) and leaves the intent `Failed`, but the
intent's `executionCount` stays `0` — it does not reflect the attempt. -/
theorem C3_failed_attempt_counterexample :
    isOkB failedResult = true ∧
    failedState.totalExecutions = 1 ∧
    (lookupIntent failedState.registry 777).status = .Failed ∧
    (lookupIntent failedState.registry 777).executionCount = 0 := by
  refine ⟨by decide, by decide, by decide, by decide⟩

/-- C3 (amended): every attempt that passes `executeIntent`'s precondition
checks increments the manager's global `totalExecutions` by exactly one,
but the intent's `executionCount` increments (by one, via
`markIntentExecuted`) only when the attempt succeeds; a failed attempt
leaves it unchanged. -/
theorem C3_execution_count (st : ManagerState) (intentId : Nat)
    (steps : List ExecutionStep) (ext : ExtEnv) (ts gs gl : Nat)
    (huser : (lookupIntent st.registry intentId).user ≠ 0)
    (hlock : st.locked = false)
    (hne : steps.length ≠ 0)
    (hlen : steps.length ≤ 100)
    (hparsed : (lookupIntent st.registry intentId).status = IntentStatus.Parsed)
    (hexec : isExecutor st.registry st.managerAddr = true) :
    ∃ b st' evs,
      executeIntent st intentId steps ext ts gs gl = .ok (b, st', evs) ∧
      st'.totalExecutions = st.totalExecutions + 1 ∧
      (lookupIntent st'.registry intentId).executionCount =
        (lookupIntent st.registry intentId).executionCount +
          (if b then 1 else 0) := by
  cases hrun : stepsLoop ext intentId 0 0 steps with
  | ok p =>
      obtain ⟨output, stepEvs⟩ := p
      refine ⟨true, _, _, executeIntent_success_run st intentId steps ext ts gs gl
        output stepEvs huser hlock hne hlen hparsed hexec hrun, rfl, ?_⟩
      simp [lookupIntent, lookup_insertAssoc_self, completeIntent]
  | error e =>
      cases e with
      | named reason =>
          refine ⟨false, _, _, executeIntent_named_fail st intentId steps ext ts gs gl
            reason huser hlock hne hlen hparsed hexec hrun, rfl, ?_⟩
          simp [lookupIntent, lookup_insertAssoc_self, setStatusIntent]
      | lowLevel =>
          refine ⟨false, _, _, executeIntent_lowlevel_fail st intentId steps ext ts gs gl
            huser hlock hne hlen hparsed hexec hrun, rfl, ?_⟩
          simp [lookupIntent, lookup_insertAssoc_self, setStatusIntent]

/-- Witness for C3 (amended) at the concrete fixture: the successful
scenario execution of intent `777`. -/
theorem C3_execution_count_witness :
    ∃ b st' evs,
      executeIntent mgrInit 777 [swapStep] okExt 60 1000000 400000 =
        .ok (b, st', evs) ∧
      st'.totalExecutions = mgrInit.totalExecutions + 1 ∧
      (lookupIntent st'.registry 777).executionCount =
        (lookupIntent mgrInit.registry 777).executionCount +
          (if b then 1 else 0) :=
  C3_execution_count mgrInit 777 [swapStep] okExt 60 1000000 400000
    (by decide) (by decide) (by decide) (by decide) (by decide) (by decide)

/-- C4 (code evaluated at the failing input): intent `777` in status
`Parsed`, one `Swap` step whose venue call reverts without reason data.
The catch-all branch of `executeIntent` writes the `Failed` transition
exactly once and emits the failure event, but records no
`ExecutionMetrics` entry — while the recognized (named) failure path, run
on the same fixture, does record one with `success = false`. -/
theorem C4_lowlevel_metrics_gap :
    lowResult = .ok (false, lowState, lowEvents) ∧
    (lookupIntent lowState.registry 777).status = .Failed ∧
    (lowEvents.filter Event.isFailedTransition).length = 1 ∧
    lookupAssoc lowState.executionMetrics 777 = none ∧
    (failedEvents.filter Event.isFailedTransition).length = 1 ∧
    lookupAssoc failedState.executionMetrics 777 =
      some { startGas := 1000000, endGas := 400000, gasUsed := 600000
           , executionTime := 0, success := false } := by
  refine ⟨by decide, by decide, by decide, by decide, by decide, by decide⟩

/-- C5 counterexample: in the spec's concrete scenario (`Swap`,
`amount = 100`, `minOutput = 95`), the realized total recorded by the
completion event is `95` — `executeSwap` simulates `amount * 95 / 100` —
not `98`. -/
theorem C5_scenario_counterexample :
    completedOutputs scenarioEvents = [95] ∧
    completedOutputs scenarioEvents ≠ [98] := by
  refine ⟨by decide, by decide⟩

/-- C5 (amended): registering `"swap 100 A for B"` with
`costEstimate = 150000` and executing its one-`Swap` plan
(`amount = 100`, `minOutput = 95`) succeeds, and the final state is
`status = Completed`, `executionCount = 1`, with realized total `95`. -/
theorem C5_scenario_amended :
    (lookupIntent mgrInit.registry 777).naturalLanguage = "swap 100 A for B" ∧
    (lookupIntent mgrInit.registry 777).gasEstimate = 150000 ∧
    isOkB scenarioResult = true ∧
    (lookupIntent scenarioState.registry 777).status = .Completed ∧
    (lookupIntent scenarioState.registry 777).executionCount = 1 ∧
    completedOutputs scenarioEvents = [95] := by
  refine ⟨by decide, by decide, by decide, by decide, by decide, by decide⟩

/-- C6 counterexample: at the moment the scenario attempt dispatches its
steps (after `executeIntent`'s preamble), the ledger status of intent
`777` is still `Parsed`, not `Executing`; and a re-entrant `executeIntent`
call in that state is rejected by the reentrancy guard, not by the
`"Intent not ready for execution"` (InvalidState) check. -/
theorem C6_executing_counterexample :
    isOkB (executeIntentPreamble mgrInit 777 [swapStep]) = true ∧
    (lookupIntent midState.registry 777).status = .Parsed ∧
    (lookupIntent midState.registry 777).status ≠ .Executing ∧
    executeIntent midState 777 [swapStep] okExt 60 1000000 400000 =
      .error "ReentrancyGuard: reentrant call" ∧
    executeIntent midState 777 [swapStep] okExt 60 1000000 400000 ≠
      .error "Intent not ready for execution" := by
  refine ⟨by decide, by decide, by decide, by decide, by decide⟩

/-- C6 (amended): `executeIntent` never transitions the ledger status to
`Executing`.  After its preamble (the point where step dispatch begins)
the registry is unchanged — the intent still reads `Parsed` — and the
reentrancy lock is held, so any re-entrant `executeIntent` call for the
same intent is rejected with the reentrancy-guard error, not with an
InvalidState error. -/
theorem C6_no_executing_transition (st : ManagerState) (intentId : Nat)
    (steps : List ExecutionStep)
    (huser : (lookupIntent st.registry intentId).user ≠ 0)
    (hlock : st.locked = false)
    (hne : steps.length ≠ 0)
    (hlen : steps.length ≤ 100)
    (hparsed : (lookupIntent st.registry intentId).status = IntentStatus.Parsed) :
    ∃ stMid, executeIntentPreamble st intentId steps = .ok stMid ∧
      stMid.registry = st.registry ∧
      (lookupIntent stMid.registry intentId).status = .Parsed ∧
      stMid.locked = true ∧
      (∀ (steps₂ : List ExecutionStep) (ext : ExtEnv) (ts gs gl : Nat),
        executeIntent stMid intentId steps₂ ext ts gs gl =
          .error "ReentrancyGuard: reentrant call") := by
  have hmid : executeIntentPreamble st intentId steps =
      .ok { st with totalExecutions := st.totalExecutions + 1, locked := true } := by
    rw [executeIntentPreamble, if_neg huser, if_neg (by simp [hlock]),
      if_neg hne, if_neg (by omega), if_neg (by simp [hparsed])]
  refine ⟨_, hmid, rfl, hparsed, rfl, ?_⟩
  intro steps₂ ext ts gs gl
  exact executeIntent_locked
    ({ st with totalExecutions := st.totalExecutions + 1, locked := true })
    intentId steps₂ ext ts gs gl huser rfl

/-- Witness for C6 (amended) at the concrete fixture. -/
theorem C6_no_executing_transition_witness :
    ∃ stMid, executeIntentPreamble mgrInit 777 [swapStep] = .ok stMid ∧
      stMid.registry = mgrInit.registry ∧
      (lookupIntent stMid.registry 777).status = .Parsed ∧
      stMid.locked = true ∧
      (∀ (steps₂ : List ExecutionStep) (ext : ExtEnv) (ts gs gl : Nat),
        executeIntent stMid 777 steps₂ ext ts gs gl =
          .error "ReentrancyGuard: reentrant call") :=
  C6_no_executing_transition mgrInit 777 [swapStep]
    (by decide) (by decide) (by decide) (by decide) (by decide)

/-- C7: id uniqueness.  `registerIntent` rejects a registration whose
computed id is already occupied, failing with the `AlreadyExists` revert;
consequently a successful registration's id (for a non-zero sender) is
never returned again by a later successful registration, across any
sequence of registry operations in between; and the ledger's intent map
keeps at most one binding per id under every operation sequence. -/
theorem C7_register_uniqueness (hashFn : Address → String → Nat → Nat → Nat) :
    (∀ (st : RegistryState) (sender : Address) (nl : String) (pd : List Nat)
        (g ts : Nat),
      nl.length ≠ 0 → g ≠ 0 → g ≤ 10000000 →
      (lookupIntent st (hashFn sender nl ts st.allIntentIds.length)).user ≠ 0 →
      registerIntent hashFn st sender nl pd g ts =
        .error "Intent already exists") ∧
    (∀ (st : RegistryState) (ops : List RegOp) (sender₁ sender₂ : Address)
        (nl₁ nl₂ : String) (pd₁ pd₂ : List Nat) (g₁ g₂ ts₁ ts₂ id₁ id₂ : Nat)
        (st₁ st₂ : RegistryState) (evs₁ evs₂ : List Event),
      sender₁ ≠ 0 →
      registerIntent hashFn st sender₁ nl₁ pd₁ g₁ ts₁ = .ok (id₁, st₁, evs₁) →
      registerIntent hashFn (applyOps hashFn st₁ ops) sender₂ nl₂ pd₂ g₂ ts₂ =
        .ok (id₂, st₂, evs₂) →
      id₁ ≠ id₂) ∧
    (∀ (st : RegistryState) (ops : List RegOp),
      (st.intents.map Prod.fst).Nodup →
      ((applyOps hashFn st ops).intents.map Prod.fst).Nodup) := by
  refine ⟨?_, ?_, ?_⟩
  · intro st sender nl pd g ts h1 h2 h3 hdup
    rw [registerIntent, if_neg h1, if_neg h2, if_neg (Nat.not_lt.mpr h3)]
    simp only [ne_eq]
    rw [if_pos hdup]
  · intro st ops s₁ s₂ nl₁ nl₂ pd₁ pd₂ g₁ g₂ ts₁ ts₂ id₁ id₂ st₁ st₂ evs₁ evs₂
      hs₁ h₁ h₂
    obtain ⟨_, _, hins₁⟩ :=
      registerIntent_ok_inv hashFn st s₁ nl₁ pd₁ g₁ ts₁ id₁ st₁ evs₁ h₁
    have hu₁ : (lookupIntent st₁ id₁).user ≠ 0 := by
      rw [lookupIntent_insert_self st st₁ id₁ _ hins₁]
      simpa [freshIntent] using hs₁
    have hu₂ : (lookupIntent (applyOps hashFn st₁ ops) id₁).user ≠ 0 :=
      applyOps_preserves_user hashFn ops st₁ id₁ hu₁
    intro heq
    obtain ⟨_, hzero₂, _⟩ :=
      registerIntent_ok_inv hashFn (applyOps hashFn st₁ ops) s₂ nl₂ pd₂ g₂ ts₂
        id₂ st₂ evs₂ h₂
    rw [← heq] at hzero₂
    exact hu₂ hzero₂
  · intro st ops h
    exact applyOps_preserves_keys_nodup hashFn ops st h

/-- Witness for C7 at concrete fixtures: re-registering the scenario
description under the same constant hash fails with the duplicate error;
with the counter-based hash, two back-to-back successful registrations
return the distinct ids `1000` and `1001`; and the fixture registry's key
list stays duplicate-free under an operation sequence. -/
theorem C7_register_uniqueness_witness :
    registerIntent constHash regAfterRegister 5 "again" [] 150000 51 =
      .error "Intent already exists" ∧
    (1000 : Nat) ≠ 1001 ∧
    ((applyOps constHash regAfterRegister
      [.setStatus 900 777 .Failed 55]).intents.map Prod.fst).Nodup := by
  refine ⟨?_, ?_, ?_⟩
  · exact (C7_register_uniqueness constHash).1 regAfterRegister 5 "again" []
      150000 51 (by decide) (by decide) (by decide) (by decide)
  · exact (C7_register_uniqueness seqHash).2.1 regInit [] 5 5
      "intent one" "intent two" [] [] 150000 150000 50 51 1000 1001
      (regOrKeep seqHash regInit 5 "intent one" [] 150000 50)
      (regOrKeep seqHash (regOrKeep seqHash regInit 5 "intent one" [] 150000 50)
        5 "intent two" [] 150000 51)
      [.IntentRegistered 1000 5] [.IntentRegistered 1001 5]
      (by decide) (by decide) (by decide)
  · exact (C7_register_uniqueness constHash).2.2 regAfterRegister
      [.setStatus 900 777 .Failed 55] (by decide)

/-- C8: success-rate arithmetic.  `getSuccessRate` returns `0` when
`totalExecutions = 0`, otherwise the integer percentage
`successfulExecutions * 100 / totalExecutions`, which is at most `100`
whenever successes do not exceed attempts; and after three successful and
one failed execution of the concrete fixtures it returns `75`. -/
theorem C8_success_rate :
    (∀ st : ManagerState, st.totalExecutions = 0 → getSuccessRate st = 0) ∧
    (∀ st : ManagerState, st.totalExecutions ≠ 0 →
      getSuccessRate st = st.successfulExecutions * 100 / st.totalExecutions) ∧
    (∀ st : ManagerState, st.successfulExecutions ≤ st.totalExecutions →
      getSuccessRate st ≤ 100) ∧
    getExecutionStats scenario31 = (4, 3, 1) ∧
    getSuccessRate scenario31 = 75 := by
  refine ⟨?_, ?_, ?_, by decide, by decide⟩
  · intro st h; simp [getSuccessRate, h]
  · intro st h; simp [getSuccessRate, h]
  · intro st h
    by_cases ht : st.totalExecutions = 0
    · simp [getSuccessRate, ht]
    · simp only [getSuccessRate, if_neg ht]
      calc st.successfulExecutions * 100 / st.totalExecutions
          ≤ st.totalExecutions * 100 / st.totalExecutions :=
            Nat.div_le_div_right (Nat.mul_le_mul_right 100 h)
        _ = 100 := Nat.mul_div_cancel_left 100 (Nat.pos_of_ne_zero ht)

/-- Witness for C8 at concrete states: the initial manager state and the
three-successes-one-failure state. -/
theorem C8_success_rate_witness :
    getSuccessRate mgrInit = 0 ∧
    getSuccessRate scenario31 =
      scenario31.successfulExecutions * 100 / scenario31.totalExecutions ∧
    getSuccessRate scenario31 ≤ 100 :=
  ⟨C8_success_rate.1 mgrInit (by decide),
   C8_success_rate.2.1 scenario31 (by decide),
   C8_success_rate.2.2.1 scenario31 (by decide)⟩

/-- C9: cost estimation.  For every non-empty step list, `estimateGas`
returns the fixed base cost `21000` plus the sum of a per-step cost
determined only by the step's `actionType`; it is therefore invariant
under every permutation of the list; and the per-step costs order as
`Swap (150000) > Stake = Unstake (120000) > every other action type
(100000)`. -/
theorem C9_estimate_gas :
    (∀ steps : List ExecutionStep, steps ≠ [] →
      estimateGas steps =
        .ok (21000 + (steps.map (fun s => stepGas s.actionType)).sum)) ∧
    (∀ steps steps' : List ExecutionStep, steps ≠ [] → steps.Perm steps' →
      estimateGas steps = estimateGas steps') ∧
    stepGas .Stake < stepGas .Swap ∧ stepGas .Unstake < stepGas .Swap ∧
    stepGas .Supply < stepGas .Stake ∧ stepGas .Borrow < stepGas .Stake ∧
    stepGas .Withdraw < stepGas .Stake ∧
    stepGas .Supply < stepGas .Unstake ∧ stepGas .Borrow < stepGas .Unstake ∧
    stepGas .Withdraw < stepGas .Unstake := by
  refine ⟨estimateGas_eq_sum, ?_, by decide, by decide, by decide, by decide,
    by decide, by decide, by decide, by decide⟩
  intro steps steps' h hp
  have h' : steps' ≠ [] := by
    intro hnil
    rw [hnil] at hp
    exact h hp.eq_nil
  rw [estimateGas_eq_sum steps h, estimateGas_eq_sum steps' h']
  have hsum := (hp.map (fun s => stepGas s.actionType)).sum_eq
  rw [hsum]

/-- Witness for C9 at concrete step lists: a one-step list and a swapped
two-step permutation. -/
theorem C9_estimate_gas_witness :
    estimateGas [swapStep] =
      .ok (21000 + ([swapStep].map (fun s => stepGas s.actionType)).sum) ∧
    estimateGas [swapStep, badSwapStep] =
      estimateGas [badSwapStep, swapStep] :=
  ⟨C9_estimate_gas.1 [swapStep] (by decide),
   C9_estimate_gas.2.1 [swapStep, badSwapStep] [badSwapStep, swapStep]
    (by decide) (by decide)⟩

/-- C10: `executeSteps` is the contract's only externally visible step
driver, and it rejects every caller other than the `ExecutionManager`
itself with the `"Can only be called internally"` revert (a revert leaves
all contract state unchanged by EVM semantics, which the `Except.error`
embedding encodes); conversely, any run that executes steps was made by
the contract's own self-call. -/
theorem C10_executeSteps_internal_only :
    (∀ (self sender : Address) (intentId : Nat) (steps : List ExecutionStep)
        (ext : ExtEnv),
      sender ≠ self →
      executeSteps self sender intentId steps ext =
        .error (.named "Can only be called internally")) ∧
    (∀ (self sender : Address) (intentId : Nat) (steps : List ExecutionStep)
        (ext : ExtEnv) (r : Nat × List Event),
      executeSteps self sender intentId steps ext = .ok r → sender = self) := by
  constructor
  · intro self sender intentId steps ext h
    rw [executeSteps, if_pos h]
  · intro self sender intentId steps ext r h
    by_contra hne
    rw [executeSteps, if_pos hne] at h
    cases h

/-- Witness for C10 at a concrete call: a user (address `5`) calling
`executeSteps` of the manager deployed at `900` is rejected, and the
scenario's successful internal run implies the self-call condition. -/
theorem C10_executeSteps_internal_only_witness :
    executeSteps 900 5 777 [swapStep] okExt =
      .error (.named "Can only be called internally") ∧
    (900 : Address) = 900 :=
  ⟨C10_executeSteps_internal_only.1 900 5 777 [swapStep] okExt (by decide),
   C10_executeSteps_internal_only.2 900 900 777 [swapStep] okExt
    (95, [.StepExecutedEvt 777 0 100]) (by decide)⟩

end IntentX
